import Mathlib

/-!
Verification development for the ATS résumé-scoring core
(`core/services/nlp_service.py`, `core/services/scoring_service.py`,
`core/services/gemini_service.py`).

The Python code is shallowly embedded:
* Python floats are modelled as exact rationals (`ℚ`);
* the sentence-transformer embedder is abstracted as a cosine-similarity
  parameter `sim : String → String → ℚ` (the code uses the cosine value
  unclamped; mathematically it ranges over `[-1, 1]`, and is `0` for the
  all-zero fallback vectors);
* Python text is modelled at ASCII granularity over `List Char`;
* `round(x, n)` is modelled as round-half-to-even on exact rationals;
* a Python `set` of strings is modelled as a deduplicated list; iteration
  order of a Python set is unspecified, so list-valued breakdown fields are
  faithful up to ordering (all claims only use lengths, membership and the
  exact lists of the early-return branches, which involve no set).

The two `@[irreducible]` rational operations from the library are made
unfoldable locally so that concrete runs of the embedded code can be
evaluated by `decide`.
-/
attribute [local semireducible] Rat.add Rat.mul Rat.sub Rat.inv

/-! ### Rational helpers: Python `min`/`max`/`round` -/
/-- Minimum on `ℚ`, written with an explicit `if` so it evaluates by `decide`. -/
def qmin (a b : ℚ) : ℚ := if a ≤ b then a else b

/-- Maximum on `ℚ`, written with an explicit `if` so it evaluates by `decide`. -/
def qmax (a b : ℚ) : ℚ := if a ≤ b then b else a

/-- Computable floor of a rational (numerator floor-divided by denominator). -/
def floorQ (q : ℚ) : ℤ := q.num.fdiv (q.den : ℤ)

/-- Round a rational to the nearest integer, halves to even: the model of
Python 3 `round` on exact values. -/
def pyRoundHalfEven (q : ℚ) : ℤ :=
  let f : ℤ := floorQ q
  if q - f < 1/2 then f
  else if (1:ℚ)/2 < q - f then f + 1
  else if f % 2 = 0 then f else f + 1

/-- Python `round(x, 2)` on exact rationals. -/
def pyRound2 (q : ℚ) : ℚ := (pyRoundHalfEven (q * 100) : ℚ) / 100

/-- Python `round(x, 3)` on exact rationals. -/
def pyRound3 (q : ℚ) : ℚ := (pyRoundHalfEven (q * 1000) : ℚ) / 1000

/-! ### Character-level text model (ASCII semantics of the Python code) -/
/-- The whitespace characters of Python `\s` / `str.strip` at ASCII level. -/
def pySpace (c : Char) : Bool :=
  c = ' ' || c = '\t' || c = '\n' || c = '\r' || c = '\x0b' || c = '\x0c'

/-- A Python `\w` word character at ASCII level. -/
def isWordChar (c : Char) : Bool := c.isAlphanum || c = '_'

/-- The 26 ASCII uppercase letters. -/
def upperLetters : List Char :=
  ['A','B','C','D','E','F','G','H','I','J','K','L','M',
   'N','O','P','Q','R','S','T','U','V','W','X','Y','Z']

/-- The 26 ASCII lowercase letters. -/
def lowerLetters : List Char :=
  ['a','b','c','d','e','f','g','h','i','j','k','l','m',
   'n','o','p','q','r','s','t','u','v','w','x','y','z']

/-- ASCII lowercasing of one character (the model of Python `str.lower`),
written as a table lookup so all proofs stay at the level of
concrete characters. -/
def pyLowerChar (c : Char) : Char :=
  match (upperLetters.zip lowerLetters).find? (fun p => p.1 = c) with
  | some p => p.2
  | none => c

/-- Lowercase a character list. -/
def lowerL (l : List Char) : List Char := l.map pyLowerChar

/-- Python regex replacement of non-word, non-space characters by a space (the
second stage of normalize_text): replace every character that is neither a
word character nor whitespace by a space. -/
def subNonWordL (l : List Char) : List Char :=
  l.map fun c => if isWordChar c || pySpace c then c else ' '

/-- Python regex collapse of whitespace runs (the third stage of
normalize_text): collapse each maximal whitespace run into a
single space.  The flag records whether the previous character was
whitespace (i.e. whether we are inside a run that already emitted its
space). -/
def collapseWsAux : Bool → List Char → List Char
  | _, [] => []
  | prev, c :: rest =>
    if pySpace c then
      if prev then collapseWsAux true rest else ' ' :: collapseWsAux true rest
    else c :: collapseWsAux false rest

/-- Python `str.strip()` on a character list. -/
def stripL (l : List Char) : List Char :=
  ((l.dropWhile pySpace).reverse.dropWhile pySpace).reverse

/-- The character-list core of `NLPService.normalize_text`:
lowercase, strip non-word/non-space characters, collapse whitespace, strip. -/
def normalizeL (l : List Char) : List Char :=
  stripL (collapseWsAux false (subNonWordL (lowerL l)))

/-- The model of `NLPService.normalize_text`. -/
def normalize_text (s : String) : String := String.mk (normalizeL s.data)

/-! ### Idempotence infrastructure for `normalize_text` (claim C9) -/
/-- Adjacent characters are never both spaces. -/
def noTwoSpaces (a b : Char) : Prop := ¬(a = ' ' ∧ b = ' ')

/-- The shape of `normalizeL` output: lowercase-stable characters that are
word characters or single spaces, no adjacent spaces, no leading or trailing
space. -/
structure NormalizedL (l : List Char) : Prop where
  lower : ∀ c ∈ l, pyLowerChar c = c
  word : ∀ c ∈ l, isWordChar c = true ∨ c = ' '
  chain : l.Chain' noTwoSpaces
  headOk : ∀ c, l.head? = some c → c ≠ ' '
  lastOk : ∀ c, l.getLast? = some c → c ≠ ' '

/-! ### String-level helpers used by the services -/
/-- Python string truthiness `a or b`. -/
def orElseStr (a b : String) : String := if a = "" then b else a

/-- Python `str.lower` at ASCII level. -/
def pyLowerStr (s : String) : String := String.mk (lowerL s.data)

/-- Python `str.strip()`. -/
def pyStrip (s : String) : String := String.mk (stripL s.data)

/-- Python `s[:n]` (slicing by code points). -/
def pyTake (s : String) (n : ℕ) : String := String.mk (s.data.take n)

/-- Does the first list start with the second (Python `str.startswith`)? -/
def startsWithL : List Char → List Char → Bool
  | _, [] => true
  | [], _ :: _ => false
  | c :: cs, p :: ps => (c = p) && startsWithL cs ps

/-- Python `str.startswith`. -/
def pyStartsWith (s p : String) : Bool := startsWithL s.data p.data

/-- Split a character list at newline characters (the model of Python
`str.splitlines` for newline-separated text). -/
def splitLinesL : List Char → List (List Char)
  | [] => [[]]
  | c :: rest =>
    if c = '\n' then [] :: splitLinesL rest
    else
      match splitLinesL rest with
      | [] => [[c]]
      | l :: ls => (c :: l) :: ls

/-- Python `str.splitlines` on newline-separated text. -/
def pySplitLines (s : String) : List String := (splitLinesL s.data).map String.mk

/-- Join character lists with a separator. -/
def joinWithL (sep : List Char) : List (List Char) → List Char
  | [] => []
  | [l] => l
  | l :: ls => l ++ sep ++ joinWithL sep ls

/-- Python `sep.join(strings)`. -/
def pyJoin (sep : String) (l : List String) : String :=
  String.mk (joinWithL sep.data (l.map String.data))

/-! ### NLP service: feature records and dimension scorers -/
/-- The dict produced by `NLPService.extract_education` (the fields the
scorers read). -/
structure EduFeatures where
  degree_level : String
  raw_text : String
  normalized_text : String
deriving DecidableEq

/-- The dict produced by `NLPService.extract_experience` (the fields the
scorers read). -/
structure ExpFeatures where
  years : ℚ
  job_titles : List String
  raw_text : String
  normalized_text : String
deriving DecidableEq

/-- A parsed document (`parse_resume_sections` / `parse_jd_sections` output,
restricted to the keys `compute_match_score` reads). -/
structure Sections where
  education : EduFeatures
  skills : List String
  experience : ExpFeatures
deriving DecidableEq

/-- The rank lookup `NLPService.level_hierarchy.get(level, 0)`. -/
def levelRank (lvl : String) : ℚ :=
  if lvl = "unknown" then 0
  else if lvl = "diploma" then 1
  else if lvl = "bachelor" then 2
  else if lvl = "master" then 3
  else if lvl = "doctoral" then 4
  else 0

/-- The model of `NLPService.compute_similarity`: `0.0` when either text is empty,
otherwise the embedder cosine `sim` of the two texts. -/
def compute_similarity (sim : String → String → ℚ) (t1 t2 : String) : ℚ :=
  if t1 = "" ∨ t2 = "" then 0 else sim t1 t2

/-- The model of `NLPService.compute_education_similarity`. -/
def compute_education_similarity (sim : String → String → ℚ)
    (resume_edu jd_edu : EduFeatures) : ℚ :=
  let resume_text := orElseStr resume_edu.normalized_text (normalize_text resume_edu.raw_text)
  let jd_text := orElseStr jd_edu.normalized_text (normalize_text jd_edu.raw_text)
  let base_similarity :=
    if resume_text ≠ "" ∧ jd_text ≠ "" then compute_similarity sim resume_text jd_text else 0
  let resume_rank := levelRank resume_edu.degree_level
  let jd_rank := levelRank jd_edu.degree_level
  if jd_rank = 0 then qmin 1 (base_similarity + 15/100 * resume_rank)
  else
    let level_gap := resume_rank - jd_rank
    let heuristic_score : ℚ :=
      if level_gap ≥ 1 then 9/10
      else if level_gap = 0 then 8/10
      else if level_gap = -1 then 6/10
      else 4/10
    qmin 1 (qmax heuristic_score base_similarity)

/-- The skills breakdown dict of `compute_skills_similarity` (`match_ratio`
is only present in the general branch). -/
structure SkillsBreakdown where
  matched : List String
  missing : List String
  extra : List String
  match_ratio : Option String
deriving DecidableEq

/-- A Python `set(s.lower() for s in l)`, as a deduplicated list. -/
def lowerSet (l : List String) : List String := (l.map pyLowerStr).dedup

/-- Join skills with single spaces, as the code does before embedding. -/
def joinSpace (l : List String) : String := pyJoin " " l

/-- The model of `NLPService.compute_skills_similarity`. -/
def compute_skills_similarity (sim : String → String → ℚ)
    (resume_skills jd_skills : List String) : ℚ × SkillsBreakdown :=
  if jd_skills = [] then
    (1, ⟨[], [], resume_skills, none⟩)
  else if resume_skills = [] then
    (0, ⟨[], jd_skills, [], none⟩)
  else
    let resume_set := lowerSet resume_skills
    let jd_set := lowerSet jd_skills
    let matched := resume_set.filter (fun s => decide (s ∈ jd_set))
    let missing := jd_set.filter (fun s => decide (s ∉ resume_set))
    let extra := resume_set.filter (fun s => decide (s ∉ jd_set))
    let exact_match_score : ℚ :=
      if jd_set ≠ [] then (matched.length : ℚ) / (jd_set.length : ℚ) else 0
    let semantic_similarity :=
      compute_similarity sim (joinSpace resume_skills) (joinSpace jd_skills)
    let final_score := qmin 1 (85/100 * exact_match_score + 15/100 * semantic_similarity)
    (final_score,
      ⟨matched, missing, extra,
       some (toString matched.length ++ "/" ++ toString jd_set.length)⟩)

/-- The model of `NLPService.compute_experience_similarity`. -/
def compute_experience_similarity (sim : String → String → ℚ)
    (resume_exp jd_exp : ExpFeatures) : ℚ :=
  let resume_years := resume_exp.years
  let jd_years := jd_exp.years
  let years_score :=
    if jd_years > 0 then qmin 1 (resume_years / jd_years)
    else qmin 1 (resume_years / qmax 1 (resume_years + 2))
  let resume_text := orElseStr resume_exp.normalized_text resume_exp.raw_text
  let jd_text := orElseStr jd_exp.normalized_text jd_exp.raw_text
  let semantic_score :=
    if resume_text ≠ "" ∧ jd_text ≠ "" then compute_similarity sim resume_text jd_text else 0
  let resume_titles := resume_exp.job_titles.dedup
  let jd_titles := jd_exp.job_titles.dedup
  let title_overlap : ℚ :=
    if resume_titles ≠ [] ∧ jd_titles ≠ [] then
      qmin 1 (((resume_titles.filter (fun s => decide (s ∈ jd_titles))).length : ℚ) /
        ((Nat.max 1 jd_titles.length : ℕ) : ℚ))
    else 0
  qmin 1 (45/100 * years_score + 35/100 * semantic_score + 20/100 * title_overlap)

/-- The model of `NLPService.compute_profession_similarity`. -/
def compute_profession_similarity (sim : String → String → ℚ)
    (resume_text jd_text : String) : ℚ :=
  if resume_text = "" ∨ jd_text = "" then 1/2
  else compute_similarity sim (normalize_text (pyTake resume_text 1000))
        (normalize_text (pyTake jd_text 1000))

/-! ### Scoring service: configuration, reviewer correction and result -/
/-- The scoring configuration snapshot (`AdminSettings.get_settings()`).  The
last field models the partial-credit cap of the Django model. -/
structure AdminSettings where
  weight_education : ℚ
  weight_skills : ℚ
  weight_experience : ℚ
  profession_zero_threshold : ℚ
  profession_cap_threshold : ℚ
  credit_cap : ℚ
deriving DecidableEq

/-- The Django model defaults (weights 0.35/0.45/0.20, thresholds 0.2/0.4,
cap 30.0). -/
def defaultSettings : AdminSettings :=
  ⟨35/100, 45/100, 20/100, 2/10, 4/10, 30⟩

/-- A JSON-ish value for the `profession_mismatch` field of a reviewer
response. -/
inductive PyFlag where
  | str (s : String)
  | boolean (b : Bool)
  | num (q : ℚ)
deriving DecidableEq

/-- Lines 172-175 of `compute_match_score`: a string flag is accepted when its
stripped, lowercased form is `true`/`1`/`yes`; anything else goes through
Python `bool(...)`. -/
def resolveFlag : PyFlag → Bool
  | .str s =>
    let v := pyLowerStr (pyStrip s)
    v = "true" || v = "1" || v = "yes"
  | .boolean b => b
  | .num q => decide (q ≠ 0)

/-- A well-typed reviewer correction as consumed by `compute_match_score`.
A JSON `null` field is modelled as absent, matching how the code treats it. -/
structure Correction where
  final_score : Option ℚ
  profession_mismatch : Option PyFlag
  profession_reason : Option String
  review : Option String
  suggestion : Option String
deriving DecidableEq

/-- The reviewer correction as it is returned inside the result (possibly
mutated by the final mismatch cap, lines 215-217). -/
structure CorrectionOut where
  final_score : Option ℚ
  profession_mismatch : Option PyFlag
  profession_reason : Option String
  review : Option String
  suggestion : Option String
  final_score_original : Option ℚ
deriving DecidableEq

/-- Lines 167-191 of `compute_match_score`: apply the reviewer correction to
the working score and mismatch flag.  Returns the corrected score, the
corrected flag, and `ai_profession_flag_resolved`. -/
def correction_step (gem : Option Correction) (prevScore : ℚ) (prevFlag : Bool) :
    ℚ × Bool × Option Bool :=
  match gem with
  | none => (prevScore, prevFlag, none)
  | some c =>
    match c.final_score with
    | none => (prevScore, prevFlag, none)
    | some v =>
      let s := qmin (qmax v 0) 100
      match c.profession_mismatch with
      | none => (s, prevFlag, none)
      | some f => (s, resolveFlag f, some (resolveFlag f))

/-- Lines 80-84 of `compute_match_score`: matched/(matched+missing), `0.0`
when the posting contributed no skills. -/
def skill_overlap_ratio (sb : SkillsBreakdown) : ℚ :=
  let matched_count := sb.matched.length
  let missing_count := sb.missing.length
  let jd_skill_total := matched_count + missing_count
  if jd_skill_total ≠ 0 then (matched_count : ℚ) / (jd_skill_total : ℚ) else 0

/-- Lines 109-121 of `compute_match_score`: zero the composite on an active
mismatch, else apply the dynamic partial-credit cap below the cap
threshold. -/
def bert_final_value (settings : AdminSettings) (mismatch : Bool)
    (overlap_ratio profession_similarity bert0 : ℚ) : ℚ :=
  if mismatch = true then 0
  else if profession_similarity < settings.profession_cap_threshold then
    qmin bert0
      (if overlap_ratio ≥ 1/2 then qmin 100 (settings.credit_cap * (3/2))
       else settings.credit_cap)
  else bert0

/-- The fixed mismatch boilerplate suggestion of `compute_match_score`. -/
def mismatch_suggestion : String :=
  "This position requires experience in a different field. Consider applying to jobs that match your professional background."

/-- The model of the default-suggestion generator of the scoring service. -/
def generate_default_suggestion (sb : SkillsBreakdown)
    (education_score experience_score : ℚ) : String :=
  let s1 : List String :=
    if sb.missing ≠ [] then
      ["Consider gaining experience in: " ++ pyJoin ", " (sb.missing.take 3)]
    else []
  let s2 : List String :=
    if education_score < 1/2 then
      ["Consider pursuing additional certifications or degrees relevant to this role"]
    else []
  let s3 : List String :=
    if experience_score < 1/2 then
      ["Highlight more relevant work experience or projects in your resume"]
    else []
  let suggestions := s1 ++ s2 ++ s3
  let suggestions :=
    if suggestions = [] then
      ["Your profile is a good match. Consider tailoring your resume to emphasize key achievements."]
    else suggestions
  pyJoin ". " suggestions ++ "."

/-- The `bert_scores` dict of the result. -/
structure BertScores where
  education : ℚ
  skills : ℚ
  experience : ℚ
  final : ℚ
  baseline_final : ℚ
deriving DecidableEq

/-- The skills breakdown as stored in `breakdown_details` (after line 84
added `match_ratio_value`). -/
structure SkillsBreakdownOut where
  matched : List String
  missing : List String
  extra : List String
  match_ratio : Option String
  match_ratio_value : ℚ
deriving DecidableEq

/-- The `breakdown_details` dict of the result; `Option`-valued fields model
keys that may be absent (or hold `None`). -/
structure BreakdownDetails where
  skills_breakdown : SkillsBreakdownOut
  education_match : Bool
  experience_match : Bool
  profession_similarity : ℚ
  transferable_skills : Bool
  weights_used_education : ℚ
  weights_used_skills : ℚ
  weights_used_experience : ℚ
  bert_baseline_final : ℚ
  profession_mismatch : Bool
  initial_profession_mismatch : Bool
  profession_reason : Option String
  ai_profession_mismatch : Option Bool
  improvement_tip : Option String
  profession_override_reason : Option String
  message : Option String
  mismatch_cap_applied : Option ℚ
deriving DecidableEq

/-- The result dict of `compute_match_score`. -/
structure MatchResult where
  bert_scores : BertScores
  profession_similarity : ℚ
  profession_match_flag : Bool
  final_score : ℚ
  breakdown_details : BreakdownDetails
  gemini_correction : Option CorrectionOut
  suggestion_text : String
deriving DecidableEq

/-- The model of `ScoringService.compute_match_score`, with the parsed sections supplied
by the caller (the code path where `resume_sections`/`jd_sections` are
given), the settings snapshot passed explicitly, and `gemini_correction0`
standing for the return value of `gemini.validate_match_scores`
(`none` = reviewer unavailable or failed). -/
def compute_match_score (sim : String → String → ℚ) (settings : AdminSettings)
    (resume_text jd_text : String) (resume_sections jd_sections : Sections)
    (gemini_correction0 : Option Correction) : MatchResult :=
  let profession_similarity := compute_profession_similarity sim resume_text jd_text
  let initial_flag := decide (profession_similarity < settings.profession_zero_threshold)
  let initial_profession_flagged := initial_flag
  let education_score :=
    compute_education_similarity sim resume_sections.education jd_sections.education
  let sk := compute_skills_similarity sim resume_sections.skills jd_sections.skills
  let skills_score := sk.1
  let skills_breakdown := sk.2
  let overlap_ratio := skill_overlap_ratio skills_breakdown
  let initial_profession_mismatch := initial_flag && !(decide (overlap_ratio ≥ 1/2))
  let profession_override_reason : Option String :=
    if initial_flag && decide (overlap_ratio ≥ 1/2) then some "High skill overlap with JD"
    else none
  let experience_score :=
    compute_experience_similarity sim resume_sections.experience jd_sections.experience
  let raw_bert_score :=
    settings.weight_education * education_score +
    settings.weight_skills * skills_score +
    settings.weight_experience * experience_score
  let bert_baseline_final := raw_bert_score * 100
  let capped :=
    !initial_profession_mismatch &&
      decide (profession_similarity < settings.profession_cap_threshold)
  let bert_final_score :=
    bert_final_value settings initial_profession_mismatch overlap_ratio
      profession_similarity bert_baseline_final
  let default_suggestion :=
    generate_default_suggestion skills_breakdown education_score experience_score
  let final1 : ℚ := if initial_profession_mismatch then 0 else bert_final_score
  let sugg1 := if initial_profession_mismatch then mismatch_suggestion else default_suggestion
  let cs := correction_step gemini_correction0 final1 initial_profession_mismatch
  let final2 := cs.1
  let final_profession_mismatch := cs.2.1
  let ai_profession_flag_resolved := cs.2.2
  let profession_reason0 : Option String :=
    match gemini_correction0 with
    | some c =>
      if c.final_score.isSome then
        match c.profession_reason with
        | some r => if r = "" then none else some r
        | none => none
      else none
    | none => none
  let sugg2 :=
    match gemini_correction0 with
    | some c =>
      if c.final_score.isSome then
        match c.review with
        | some r =>
          if r ≠ "" then pyStrip r
          else match c.suggestion with | some s => s | none => sugg1
        | none => match c.suggestion with | some s => s | none => sugg1
      else sugg1
    | none => sugg1
  let sugg3 :=
    if final_profession_mismatch = false ∧ sugg2 = mismatch_suggestion then default_suggestion
    else sugg2
  let profession_reason : Option String :=
    if final_profession_mismatch = true ∧ profession_reason0 = none then
      some mismatch_suggestion
    else if final_profession_mismatch = false ∧ profession_reason0 = none ∧
        initial_profession_flagged = true then
      some "AI reviewer confirmed the role aligns with your profile."
    else if final_profession_mismatch = false ∧ profession_reason0 = none ∧
        profession_override_reason ≠ none then
      profession_override_reason
    else profession_reason0
  let sugg4 :=
    if final_profession_mismatch = true ∧ sugg3 = default_suggestion then
      match profession_reason with
      | some r => if r = "" then mismatch_suggestion else r
      | none => mismatch_suggestion
    else sugg3
  let mismatch_cap : ℚ := 5
  let cap_fires := final_profession_mismatch && decide (final2 > mismatch_cap)
  let final_score := if cap_fires then mismatch_cap else final2
  let gemini_correction_out : Option CorrectionOut :=
    match gemini_correction0 with
    | none => none
    | some c =>
      some { final_score := if cap_fires then some mismatch_cap else c.final_score,
             profession_mismatch := c.profession_mismatch,
             profession_reason := c.profession_reason,
             review := c.review,
             suggestion := c.suggestion,
             final_score_original := if cap_fires then some final2 else none }
  let tip_opt : Option String :=
    match gemini_correction0 with
    | some c =>
      if c.final_score.isSome then
        match c.suggestion with
        | some t => if t = "" then none else some (pyStrip t)
        | none => none
      else none
    | none => none
  let breakdown_details : BreakdownDetails :=
    { skills_breakdown :=
        { matched := skills_breakdown.matched,
          missing := skills_breakdown.missing,
          extra := skills_breakdown.extra,
          match_ratio := skills_breakdown.match_ratio,
          match_ratio_value := pyRound3 overlap_ratio },
      education_match := decide (education_score > 7/10),
      experience_match := decide (experience_score > 7/10),
      profession_similarity := pyRound3 profession_similarity,
      transferable_skills := capped,
      weights_used_education := settings.weight_education,
      weights_used_skills := settings.weight_skills,
      weights_used_experience := settings.weight_experience,
      bert_baseline_final := pyRound2 bert_baseline_final,
      profession_mismatch := final_profession_mismatch,
      initial_profession_mismatch := initial_profession_flagged,
      profession_reason := profession_reason,
      ai_profession_mismatch := ai_profession_flag_resolved,
      improvement_tip := tip_opt,
      profession_override_reason := profession_override_reason,
      message :=
        if final_profession_mismatch = true then
          some (match profession_reason with
                | some r => if r = "" then mismatch_suggestion else r
                | none => mismatch_suggestion)
        else none,
      mismatch_cap_applied := if cap_fires then some mismatch_cap else none }
  let bert_scores : BertScores :=
    { education := pyRound3 education_score,
      skills := pyRound3 skills_score,
      experience := pyRound3 experience_score,
      final := pyRound2 final_score,
      baseline_final := pyRound2 bert_baseline_final }
  { bert_scores := bert_scores,
    profession_similarity := pyRound3 profession_similarity,
    profession_match_flag := !final_profession_mismatch,
    final_score := pyRound2 final_score,
    breakdown_details := breakdown_details,
    gemini_correction := gemini_correction_out,
    suggestion_text := sugg4 }

/-! ### The raw (JSON-level) reviewer score update, for error-handling -/
/-- A parsed JSON value, as can appear for `final_score` in a reviewer
response. -/
inductive JVal where
  | num (q : ℚ)
  | str (s : String)
  | boolean (b : Bool)
  | null
deriving DecidableEq

/-- Python `max(v, q)` where `v` came from JSON: comparing a string or `None`
with a float raises `TypeError`. -/
def pyMaxJ : JVal → ℚ → Except String ℚ
  | .num v, q => .ok (qmax v q)
  | .boolean b, q => .ok (qmax (if b then 1 else 0) q)
  | .str _, _ => .error "TypeError"
  | .null, _ => .error "TypeError"

/-- Lines 167-169 of `compute_match_score` over the raw parsed JSON response:
when the response has a `final_score` key its value is clamped with
`min(max(v, 0.0), 100.0)` — which raises `TypeError` for a non-numeric
value — and otherwise the working score is kept unchanged. -/
def gemini_score_update (response : Option (List (String × JVal))) (working : ℚ) :
    Except String ℚ :=
  match response with
  | none => .ok working
  | some fields =>
    match fields.lookup "final_score" with
    | none => .ok working
    | some v => do
      let lo ← pyMaxJ v 0
      pure (qmin lo 100)

/-! ### Document segmenter (`NLPService._segment_document`) -/
/-- The three section labels. -/
inductive SKey where
  | education
  | experience
  | skills
deriving DecidableEq

/-- The heading keywords `NLPService.section_keywords`, in dict order. -/
def sectionKeywordList : SKey → List String
  | .education =>
    ["education", "academic background", "academics", "qualifications",
     "educational background", "academic profile"]
  | .experience =>
    ["experience", "work experience", "professional experience", "employment history",
     "work history", "career history", "professional background"]
  | .skills =>
    ["skills", "technical skills", "core competencies", "technologies", "tools",
     "skillset", "tech stack", "technical proficiency"]

/-- Dict iteration order of `section_keywords`. -/
def keyOrder : List SKey := [.education, .experience, .skills]

/-- The inner keyword test of the segmenter loop: the normalized line starts
with the keyword, starts with `keyword ++ ":"`, or equals the keyword (the
latter two tests are subsumed by the first; they are kept to mirror the
source). -/
def lineMatchesKey (normalized : String) (k : SKey) : Bool :=
  (sectionKeywordList k).any fun kw =>
    pyStartsWith normalized kw || pyStartsWith normalized (kw ++ ":") ||
      normalized = kw

/-- Which section heading (if any) a normalized line switches to. -/
def lineHeading (normalized : String) : Option SKey :=
  keyOrder.find? (lineMatchesKey normalized)

/-- Accumulated section content. -/
structure SegAcc where
  education : List String
  experience : List String
  skills : List String
deriving DecidableEq

def SegAcc.get (acc : SegAcc) : SKey → List String
  | .education => acc.education
  | .experience => acc.experience
  | .skills => acc.skills

def SegAcc.push (acc : SegAcc) : SKey → String → SegAcc
  | .education, line => { acc with education := acc.education ++ [line] }
  | .experience, line => { acc with experience := acc.experience ++ [line] }
  | .skills, line => { acc with skills := acc.skills ++ [line] }

/-- One iteration of the segmenter loop; the state is the current section
pointer and the accumulated content. -/
def segStep (heading : String → Option SKey) (st : Option SKey × SegAcc)
    (raw : String) : Option SKey × SegAcc :=
  let line := pyStrip raw
  if line = "" then st
  else
    match heading (pyLowerStr line) with
    | some k => (some k, st.2)
    | none =>
      match st.1 with
      | some k => (st.1, st.2.push k line)
      | none => st

/-- The segmenter loop over all lines. -/
def segRun (heading : String → Option SKey) (lines : List String) :
    Option SKey × SegAcc :=
  lines.foldl (segStep heading) (none, ⟨[], [], []⟩)

/-- Output for one section: the newline-joined, stripped content when the
section is non-empty, no key otherwise. -/
def joinedSection (vals : List String) : Option String :=
  if vals = [] then none else some (pyStrip (pyJoin "\n" vals))

/-- The output mapping of the segmenter (a key per non-empty section). -/
structure SegOut where
  education : Option String
  experience : Option String
  skills : Option String
deriving DecidableEq

def SegOut.get (o : SegOut) : SKey → Option String
  | .education => o.education
  | .experience => o.experience
  | .skills => o.skills

/-- The segmenter, parameterized by the heading test. -/
def segmentWith (heading : String → Option SKey) (text : String) : SegOut :=
  let acc := (segRun heading (pySplitLines text)).2
  { education := joinedSection acc.education,
    experience := joinedSection acc.experience,
    skills := joinedSection acc.skills }

/-- The model of `NLPService._segment_document`. -/
def segment_document (text : String) : SegOut := segmentWith lineHeading text

/-- Modelled from the spec: the heading test as the claim sentence literally
reads — "a line matching a known heading keyword (case-insensitive, optional
trailing colon)" — i.e. the whole normalized line is the keyword, or the
keyword followed by a colon. -/
def lineMatchesKeySpec (normalized : String) (k : SKey) : Bool :=
  (sectionKeywordList k).any fun kw => normalized = kw || normalized = kw ++ ":"

/-- The heading switch under the claim reading. -/
def lineHeadingSpec (normalized : String) : Option SKey :=
  keyOrder.find? (lineMatchesKeySpec normalized)

/-- The segmenter as the claim describes it (exact keyword headings). -/
def segment_document_spec (text : String) : SegOut := segmentWith lineHeadingSpec text

/-- The heading state after scanning the given lines, starting from `cur`. -/
def headingState (heading : String → Option SKey) (cur : Option SKey)
    (lines : List String) : Option SKey :=
  lines.foldl
    (fun st raw =>
      let line := pyStrip raw
      if line = "" then st
      else
        match heading (pyLowerStr line) with
        | some k => some k
        | none => st)
    cur

/-- If the raw line is a content line (non-empty after stripping and not a
heading), its stripped text. -/
def contentLine (heading : String → Option SKey) (raw : String) : Option String :=
  let line := pyStrip raw
  if line = "" then none
  else if (heading (pyLowerStr line)).isSome then none
  else some line

/-- Declarative description of the content of a section: the stripped, non-empty,
non-heading lines, in their original order, taken exactly when the heading
state established by the preceding lines equals `k`. -/
def sectionContent (heading : String → Option SKey) (cur : Option SKey) (k : SKey) :
    List String → List String
  | [] => []
  | raw :: rest =>
    let nextCur := headingState heading cur [raw]
    let tail := sectionContent heading nextCur k rest
    match contentLine heading raw with
    | some line => if cur = some k then line :: tail else tail
    | none => tail

theorem floorQ_eq (q : ℚ) : floorQ q = ⌊q⌋ := by
  rw [Rat.floor_def, floorQ, Int.fdiv_eq_ediv _ (by positivity)]

theorem le_pyRoundHalfEven {n : ℤ} {q : ℚ} (h : (n : ℚ) ≤ q) :
    n ≤ pyRoundHalfEven q := by
  have hf : (n : ℤ) ≤ floorQ q := by
    rw [floorQ_eq]; exact Int.le_floor.mpr h
  unfold pyRoundHalfEven
  dsimp only
  split
  · exact hf
  · split
    · omega
    · split
      · exact hf
      · omega

theorem pyRoundHalfEven_le {n : ℤ} {q : ℚ} (h : q ≤ (n : ℚ)) :
    pyRoundHalfEven q ≤ n := by
  have hfl : (floorQ q : ℚ) ≤ q := by rw [floorQ_eq]; exact Int.floor_le q
  have hf : floorQ q ≤ n := by
    rw [floorQ_eq]
    calc ⌊q⌋ ≤ ⌊(n : ℚ)⌋ := Int.floor_le_floor h
    _ = n := Int.floor_intCast n
  unfold pyRoundHalfEven
  dsimp only
  split
  · exact hf
  · rename_i h1
    have hlt : (floorQ q : ℚ) < (n : ℚ) := by
      have : (1:ℚ)/2 ≤ q - (floorQ q : ℚ) := le_of_not_lt h1
      have : (floorQ q : ℚ) + 1/2 ≤ q := by linarith
      linarith
    have hfn : floorQ q + 1 ≤ n := by exact_mod_cast Int.add_one_le_of_lt (by exact_mod_cast hlt)
    split
    · exact hfn
    · split
      · exact hf
      · exact hfn

theorem pyRound2_nonneg {q : ℚ} (h : 0 ≤ q) : 0 ≤ pyRound2 q := by
  unfold pyRound2
  have h1 : (0:ℤ) ≤ pyRoundHalfEven (q * 100) :=
    le_pyRoundHalfEven (by push_cast; linarith)
  positivity

theorem pyRound2_le_hundred {q : ℚ} (h : q ≤ 100) : pyRound2 q ≤ 100 := by
  unfold pyRound2
  have h1 : pyRoundHalfEven (q * 100) ≤ (10000 : ℤ) :=
    pyRoundHalfEven_le (by push_cast; linarith)
  have h2 : (pyRoundHalfEven (q * 100) : ℚ) ≤ 10000 := by exact_mod_cast h1
  linarith

theorem pyLowerChar_cases (c : Char) :
    pyLowerChar c = c ∨ pyLowerChar c ∈ lowerLetters := by
  unfold pyLowerChar
  rcases hf : (upperLetters.zip lowerLetters).find? (fun p => p.1 = c) with _ | p <;>
    rw [hf]
  · left; rfl
  · right
    exact (List.of_mem_zip (List.mem_of_find?_eq_some hf)).2

theorem pyLowerChar_of_lower {c : Char} (h : c ∈ lowerLetters) :
    pyLowerChar c = c := by
  fin_cases h <;> rfl

theorem pyLowerChar_idem (c : Char) :
    pyLowerChar (pyLowerChar c) = pyLowerChar c := by
  rcases pyLowerChar_cases c with h | h
  · rw [h, h]
  · rw [pyLowerChar_of_lower h]

theorem space_not_word {c : Char} (hp : pySpace c = true) : isWordChar c = false := by
  simp only [pySpace, Bool.or_eq_true, decide_eq_true_eq] at hp
  rcases hp with ((((rfl | rfl) | rfl) | rfl) | rfl) | rfl <;> decide

theorem word_not_space {c : Char} (hw : isWordChar c = true) : pySpace c = false := by
  by_contra h
  have := space_not_word (c := c) (by simpa using h)
  simp [hw] at this

theorem pySpace_space : pySpace ' ' = true := by decide

theorem lowerL_fix {l : List Char} (h : ∀ c ∈ l, pyLowerChar c = c) :
    lowerL l = l := by
  unfold lowerL
  rw [List.map_congr_left h]
  exact List.map_id' l

theorem subNonWordL_fix {l : List Char} (h : ∀ c ∈ l, isWordChar c = true ∨ c = ' ') :
    subNonWordL l = l := by
  unfold subNonWordL
  rw [List.map_congr_left (g := fun a => a)]
  · exact List.map_id' l
  intro c hc
  rcases h c hc with hw | rfl
  · simp [hw]
  · simp [pySpace_space]

theorem mem_lowerL_stable {l : List Char} {c : Char} (h : c ∈ lowerL l) :
    pyLowerChar c = c := by
  unfold lowerL at h
  rcases List.mem_map.mp h with ⟨a, _, rfl⟩
  exact pyLowerChar_idem a

theorem mem_subNonWordL {l : List Char} {c : Char} (h : c ∈ subNonWordL l) :
    c ∈ l ∨ c = ' ' := by
  unfold subNonWordL at h
  rcases List.mem_map.mp h with ⟨a, ha, heq⟩
  by_cases hcond : (isWordChar a || pySpace a) = true
  · left
    rw [if_pos hcond] at heq
    rwa [← heq]
  · right
    rw [if_neg hcond] at heq
    exact heq.symm

theorem mem_collapseWsAux {l : List Char} {b : Bool} {c : Char}
    (h : c ∈ collapseWsAux b l) : c ∈ l ∨ c = ' ' := by
  induction l generalizing b with
  | nil => simp [collapseWsAux] at h
  | cons a rest ih =>
    unfold collapseWsAux at h
    by_cases hsp : pySpace a = true
    · rw [if_pos hsp] at h
      cases b with
      | true =>
        simp only [if_pos rfl] at h
        rcases ih h with hm | hsp2
        · exact Or.inl (List.mem_cons_of_mem _ hm)
        · exact Or.inr hsp2
      | false =>
        simp only [Bool.false_eq_true, if_neg] at h
        rcases List.mem_cons.mp h with rfl | h2
        · exact Or.inr rfl
        · rcases ih h2 with hm | hsp2
          · exact Or.inl (List.mem_cons_of_mem _ hm)
          · exact Or.inr hsp2
    · rw [if_neg hsp] at h
      rcases List.mem_cons.mp h with rfl | h2
      · exact Or.inl (List.mem_cons_self _ _)
      · rcases ih h2 with hm | hsp2
        · exact Or.inl (List.mem_cons_of_mem _ hm)
        · exact Or.inr hsp2

theorem collapseWsAux_word {l : List Char} {b : Bool} {c : Char}
    (hl : ∀ d ∈ l, isWordChar d = true ∨ pySpace d = true)
    (h : c ∈ collapseWsAux b l) : isWordChar c = true ∨ c = ' ' := by
  induction l generalizing b with
  | nil => simp [collapseWsAux] at h
  | cons a rest ih =>
    unfold collapseWsAux at h
    by_cases hsp : pySpace a = true
    · rw [if_pos hsp] at h
      cases b with
      | true =>
        simp only [if_pos rfl] at h
        exact ih (fun d hd => hl d (List.mem_cons_of_mem _ hd)) h
      | false =>
        simp only [Bool.false_eq_true, if_neg] at h
        rcases List.mem_cons.mp h with rfl | h2
        · exact Or.inr rfl
        · exact ih (fun d hd => hl d (List.mem_cons_of_mem _ hd)) h2
    · rw [if_neg hsp] at h
      rcases List.mem_cons.mp h with rfl | h2
      · rcases hl c (List.mem_cons_self _ _) with hw | hp
        · exact Or.inl hw
        · exact absurd hp hsp
      · exact ih (fun d hd => hl d (List.mem_cons_of_mem _ hd)) h2

theorem collapseWsAux_head_true {l : List Char} {c : Char}
    (h : (collapseWsAux true l).head? = some c) : pySpace c = false := by
  induction l with
  | nil => simp [collapseWsAux] at h
  | cons a rest ih =>
    unfold collapseWsAux at h
    by_cases hsp : pySpace a = true
    · rw [if_pos hsp] at h
      simp only [if_pos rfl] at h
      exact ih h
    · rw [if_neg hsp] at h
      simp only [List.head?_cons, Option.some.injEq] at h
      rw [← h]
      exact Bool.not_eq_true _ ▸ hsp

theorem collapseWsAux_chain (l : List Char) (b : Bool) :
    (collapseWsAux b l).Chain' noTwoSpaces := by
  induction l generalizing b with
  | nil => simp [collapseWsAux]
  | cons a rest ih =>
    unfold collapseWsAux
    by_cases hsp : pySpace a = true
    · rw [if_pos hsp]
      cases b with
      | true => simpa using ih true
      | false =>
        simp only [Bool.false_eq_true, if_false]
        rw [List.chain'_cons']
        refine ⟨?_, ih true⟩
        intro y hy
        have := collapseWsAux_head_true hy
        intro ⟨_, hy2⟩
        rw [hy2] at this
        exact absurd pySpace_space (by simp [this])
    · rw [if_neg hsp]
      rw [List.chain'_cons']
      refine ⟨?_, ih false⟩
      intro y _
      intro ⟨ha, _⟩
      rw [ha] at hsp
      exact hsp pySpace_space

theorem collapseWsAux_fix {l : List Char} {b : Bool}
    (hw : ∀ c ∈ l, isWordChar c = true ∨ c = ' ')
    (hc : l.Chain' noTwoSpaces)
    (hb : b = true → ∀ c, l.head? = some c → c ≠ ' ') :
    collapseWsAux b l = l := by
  induction l generalizing b with
  | nil => simp [collapseWsAux]
  | cons a rest ih =>
    unfold collapseWsAux
    by_cases hsp : pySpace a = true
    · have ha : a = ' ' := by
        rcases hw a (List.mem_cons_self _ _) with haw | has
        · exact absurd hsp (by simp [word_not_space haw])
        · exact has
      cases b with
      | true => exact absurd ha (hb rfl a (by simp))
      | false =>
        simp only [Bool.false_eq_true, if_pos hsp, if_false]
        have hrest : collapseWsAux true rest = rest := by
          refine ih (fun c h => hw c (List.mem_cons_of_mem _ h))
            (List.Chain'.tail hc) ?_
          intro _ c hhd hcsp
          subst ha
          have hR := (List.chain'_cons'.mp hc).1 c hhd
          exact hR ⟨rfl, hcsp⟩
        rw [hrest, ha]
    · rw [if_neg hsp]
      have hrest : collapseWsAux false rest = rest :=
        ih (fun c h => hw c (List.mem_cons_of_mem _ h)) (List.Chain'.tail hc)
          (fun hfalse => by simp at hfalse)
      rw [hrest]

theorem mem_subNonWordL_word {l : List Char} {c : Char} (h : c ∈ subNonWordL l) :
    isWordChar c = true ∨ pySpace c = true := by
  unfold subNonWordL at h
  rcases List.mem_map.mp h with ⟨a, _, heq⟩
  by_cases hcond : (isWordChar a || pySpace a) = true
  · rw [if_pos hcond] at heq
    rw [← heq]
    simpa [Bool.or_eq_true] using hcond
  · rw [if_neg hcond] at heq
    rw [← heq]
    exact Or.inr pySpace_space

theorem getLast?_of_suffix {l₁ l₂ : List Char} (h : l₁ <:+ l₂) (hne : l₁ ≠ []) :
    l₁.getLast? = l₂.getLast? := by
  obtain ⟨t, rfl⟩ := h
  rw [List.getLast?_append]
  cases hg : l₁.getLast? with
  | none =>
    exact absurd (List.getLast?_eq_none_iff.mp hg) hne
  | some a => rfl

theorem stripL_head {l : List Char} {c : Char} (h : (stripL l).head? = some c) :
    pySpace c = false := by
  unfold stripL at h
  rw [List.head?_reverse] at h
  set d1 := l.dropWhile pySpace with hd1
  set d2 := d1.reverse.dropWhile pySpace with hd2
  have hne : d2 ≠ [] := by
    intro hnil
    rw [hnil] at h
    simp at h
  have : d2.getLast? = d1.reverse.getLast? :=
    getLast?_of_suffix (List.dropWhile_suffix _) hne
  rw [this, List.getLast?_reverse] at h
  have hmatch := List.head?_dropWhile_not pySpace l
  rw [← hd1] at hmatch
  rw [h] at hmatch
  exact hmatch

theorem stripL_last {l : List Char} {c : Char} (h : (stripL l).getLast? = some c) :
    pySpace c = false := by
  unfold stripL at h
  rw [List.getLast?_reverse] at h
  have hmatch := List.head?_dropWhile_not pySpace (l.dropWhile pySpace).reverse
  rw [h] at hmatch
  exact hmatch

theorem stripL_subset {l : List Char} {c : Char} (h : c ∈ stripL l) : c ∈ l := by
  unfold stripL at h
  rw [List.mem_reverse] at h
  have h2 := (List.dropWhile_sublist pySpace).subset h
  rw [List.mem_reverse] at h2
  exact (List.dropWhile_sublist pySpace).subset h2

theorem chain'_reverse_noTwoSpaces {l : List Char} (h : l.Chain' noTwoSpaces) :
    l.reverse.Chain' noTwoSpaces := by
  rw [List.chain'_reverse]
  refine h.imp ?_
  intro a b hab
  intro hflip
  exact hab ⟨hflip.2, hflip.1⟩

theorem stripL_chain {l : List Char} (h : l.Chain' noTwoSpaces) :
    (stripL l).Chain' noTwoSpaces := by
  unfold stripL
  apply chain'_reverse_noTwoSpaces
  apply List.Chain'.suffix _ (List.dropWhile_suffix _)
  apply chain'_reverse_noTwoSpaces
  exact List.Chain'.suffix h (List.dropWhile_suffix _)

theorem dropWhile_pySpace_fix {l : List Char}
    (hw : ∀ c ∈ l, isWordChar c = true ∨ c = ' ')
    (hh : ∀ c, l.head? = some c → c ≠ ' ') : l.dropWhile pySpace = l := by
  cases l with
  | nil => rfl
  | cons a rest =>
    have ha : a ≠ ' ' := hh a rfl
    rcases hw a (List.mem_cons_self _ _) with haw | has
    · exact List.dropWhile_cons_of_neg (by simp [word_not_space haw])
    · exact absurd has ha

theorem stripL_fix {l : List Char}
    (hw : ∀ c ∈ l, isWordChar c = true ∨ c = ' ')
    (hh : ∀ c, l.head? = some c → c ≠ ' ')
    (hl : ∀ c, l.getLast? = some c → c ≠ ' ') : stripL l = l := by
  unfold stripL
  rw [dropWhile_pySpace_fix hw hh]
  rw [dropWhile_pySpace_fix (fun c hc => hw c (List.mem_reverse.mp hc))
      (fun c hc => hl c (by rwa [List.head?_reverse] at hc))]
  exact List.reverse_reverse l

theorem normalizeL_invariant (l : List Char) : NormalizedL (normalizeL l) := by
  have hsubw : ∀ d ∈ subNonWordL (lowerL l), isWordChar d = true ∨ pySpace d = true :=
    fun _ hd => mem_subNonWordL_word hd
  have hmw : ∀ c ∈ collapseWsAux false (subNonWordL (lowerL l)),
      isWordChar c = true ∨ c = ' ' :=
    fun _ hc => collapseWsAux_word hsubw hc
  have hml : ∀ c ∈ collapseWsAux false (subNonWordL (lowerL l)), pyLowerChar c = c := by
    intro c hc
    rcases mem_collapseWsAux hc with hc2 | rfl
    · rcases mem_subNonWordL hc2 with hc3 | rfl
      · exact mem_lowerL_stable hc3
      · decide
    · decide
  have hchain := collapseWsAux_chain (subNonWordL (lowerL l)) false
  refine ⟨?_, ?_, ?_, ?_, ?_⟩
  · exact fun c hc => hml c (stripL_subset hc)
  · exact fun c hc => hmw c (stripL_subset hc)
  · exact stripL_chain hchain
  · intro c hc hcs
    have := stripL_head hc
    rw [hcs] at this
    exact absurd pySpace_space (by simp [this])
  · intro c hc hcs
    have := stripL_last hc
    rw [hcs] at this
    exact absurd pySpace_space (by simp [this])

theorem normalizeL_fix {l : List Char} (h : NormalizedL l) : normalizeL l = l := by
  unfold normalizeL
  rw [lowerL_fix h.lower, subNonWordL_fix h.word,
      collapseWsAux_fix h.word h.chain (fun hfalse => absurd hfalse (by simp)),
      stripL_fix h.word h.headOk h.lastOk]

theorem normalizeL_idem (l : List Char) :
    normalizeL (normalizeL l) = normalizeL l :=
  normalizeL_fix (normalizeL_invariant l)

/-! ### Support lemmas: bounds of the embedded scorers -/
theorem qmin_eq (a b : ℚ) : qmin a b = min a b := by rw [qmin, min_def]

theorem qmax_eq (a b : ℚ) : qmax a b = max a b := by rw [qmax, max_def]

theorem qmin_nonneg {a b : ℚ} (ha : 0 ≤ a) (hb : 0 ≤ b) : 0 ≤ qmin a b := by
  rw [qmin_eq]; exact le_min ha hb

theorem qmin_le_left (a b : ℚ) : qmin a b ≤ a := by
  rw [qmin_eq]; exact min_le_left a b

theorem qmin_le_right (a b : ℚ) : qmin a b ≤ b := by
  rw [qmin_eq]; exact min_le_right a b

theorem qmax_nonneg_right {a b : ℚ} (hb : 0 ≤ b) : 0 ≤ qmax a b := by
  rw [qmax_eq]; exact le_trans hb (le_max_right a b)

theorem qmax_nonneg_left {a b : ℚ} (ha : 0 ≤ a) : 0 ≤ qmax a b := by
  rw [qmax_eq]; exact le_trans ha (le_max_left a b)

theorem levelRank_nonneg (lvl : String) : 0 ≤ levelRank lvl := by
  unfold levelRank
  split_ifs <;> norm_num

theorem compute_similarity_nonneg {sim : String → String → ℚ}
    (hsim : ∀ a b, 0 ≤ sim a b) (t1 t2 : String) :
    0 ≤ compute_similarity sim t1 t2 := by
  unfold compute_similarity
  split
  · exact le_refl 0
  · exact hsim t1 t2

theorem compute_education_similarity_le_one (sim : String → String → ℚ)
    (re je : EduFeatures) : compute_education_similarity sim re je ≤ 1 := by
  simp only [compute_education_similarity]
  split
  · exact qmin_le_left _ _
  · exact qmin_le_left _ _

theorem compute_education_similarity_nonneg {sim : String → String → ℚ}
    (hsim : ∀ a b, 0 ≤ sim a b) (re je : EduFeatures) :
    0 ≤ compute_education_similarity sim re je := by
  have hbase : ∀ t1 t2 : String,
      (0:ℚ) ≤ if t1 ≠ "" ∧ t2 ≠ "" then compute_similarity sim t1 t2 else 0 := by
    intro t1 t2
    split
    · exact compute_similarity_nonneg hsim t1 t2
    · exact le_refl 0
  simp only [compute_education_similarity]
  split
  · exact qmin_nonneg (by norm_num)
      (add_nonneg (hbase _ _) (mul_nonneg (by norm_num) (levelRank_nonneg _)))
  · refine qmin_nonneg (by norm_num) (qmax_nonneg_left ?_)
    split_ifs <;> norm_num

theorem compute_skills_similarity_le_one (sim : String → String → ℚ)
    (r j : List String) : (compute_skills_similarity sim r j).1 ≤ 1 := by
  simp only [compute_skills_similarity]
  split
  · norm_num
  · split
    · norm_num
    · exact qmin_le_left _ _

theorem compute_skills_similarity_nonneg {sim : String → String → ℚ}
    (hsim : ∀ a b, 0 ≤ sim a b) (r j : List String) :
    0 ≤ (compute_skills_similarity sim r j).1 := by
  simp only [compute_skills_similarity]
  split
  · norm_num
  · split
    · norm_num
    · refine qmin_nonneg (by norm_num) (add_nonneg (mul_nonneg (by norm_num) ?_)
        (mul_nonneg (by norm_num) (compute_similarity_nonneg hsim _ _)))
      split
      · positivity
      · exact le_refl 0

theorem compute_experience_similarity_le_one (sim : String → String → ℚ)
    (re je : ExpFeatures) : compute_experience_similarity sim re je ≤ 1 := by
  simp only [compute_experience_similarity]
  exact qmin_le_left _ _

theorem compute_experience_similarity_nonneg {sim : String → String → ℚ}
    (hsim : ∀ a b, 0 ≤ sim a b) (re je : ExpFeatures)
    (hyears : 0 ≤ re.years) : 0 ≤ compute_experience_similarity sim re je := by
  simp only [compute_experience_similarity]
  refine qmin_nonneg (by norm_num) ?_
  have h1 : (0:ℚ) ≤ if je.years > 0 then qmin 1 (re.years / je.years)
      else qmin 1 (re.years / qmax 1 (re.years + 2)) := by
    split
    · rename_i hj
      exact qmin_nonneg (by norm_num) (div_nonneg hyears (le_of_lt hj))
    · refine qmin_nonneg (by norm_num) (div_nonneg hyears (qmax_nonneg_left ?_))
      norm_num
  have h2 : (0:ℚ) ≤ if orElseStr re.normalized_text re.raw_text ≠ "" ∧
      orElseStr je.normalized_text je.raw_text ≠ "" then
      compute_similarity sim (orElseStr re.normalized_text re.raw_text)
        (orElseStr je.normalized_text je.raw_text) else 0 := by
    split
    · exact compute_similarity_nonneg hsim _ _
    · exact le_refl 0
  have h3 : (0:ℚ) ≤ if re.job_titles.dedup ≠ [] ∧ je.job_titles.dedup ≠ [] then
      qmin 1 (((re.job_titles.dedup.filter
          (fun s => decide (s ∈ je.job_titles.dedup))).length : ℚ) /
        ((Nat.max 1 je.job_titles.dedup.length : ℕ) : ℚ))
    else 0 := by
    split
    · exact qmin_nonneg (by norm_num) (div_nonneg (by positivity) (by positivity))
    · exact le_refl 0
  have := mul_nonneg (by norm_num : (0:ℚ) ≤ 45/100) h1
  have := mul_nonneg (by norm_num : (0:ℚ) ≤ 35/100) h2
  have := mul_nonneg (by norm_num : (0:ℚ) ≤ 20/100) h3
  linarith

theorem bert_final_value_bounds (settings : AdminSettings) (mismatch : Bool)
    (ratio ps bert0 : ℚ) (hcap : 0 ≤ settings.credit_cap)
    (hb0 : 0 ≤ bert0) (hb1 : bert0 ≤ 100) :
    0 ≤ bert_final_value settings mismatch ratio ps bert0 ∧
      bert_final_value settings mismatch ratio ps bert0 ≤ 100 := by
  unfold bert_final_value
  split
  · norm_num
  · split
    · constructor
      · refine qmin_nonneg hb0 ?_
        split
        · exact qmin_nonneg (by norm_num) (mul_nonneg hcap (by norm_num))
        · exact hcap
      · exact le_trans (qmin_le_left _ _) hb1
    · exact ⟨hb0, hb1⟩

theorem correction_step_fst_bounds (gem : Option Correction) (prevScore : ℚ)
    (prevFlag : Bool) (h0 : 0 ≤ prevScore) (h100 : prevScore ≤ 100) :
    0 ≤ (correction_step gem prevScore prevFlag).1 ∧
      (correction_step gem prevScore prevFlag).1 ≤ 100 := by
  rcases gem with _ | c
  · exact ⟨h0, h100⟩
  rcases hfs : c.final_score with _ | v
  · simp only [correction_step, hfs]
    exact ⟨h0, h100⟩
  rcases hpm : c.profession_mismatch with _ | f <;>
    simp only [correction_step, hfs, hpm] <;>
    exact ⟨qmin_nonneg (qmax_nonneg_right (by norm_num)) (by norm_num),
      qmin_le_right _ _⟩

/-! ### Segmenter characterization (claim C8) -/
theorem SegAcc.push_get (acc : SegAcc) (k0 k : SKey) (line : String) :
    (acc.push k0 line).get k =
      if k0 = k then acc.get k ++ [line] else acc.get k := by
  cases k0 <;> cases k <;> simp [SegAcc.push, SegAcc.get]

theorem segRun_get (heading : String → Option SKey) (lines : List String)
    (cur : Option SKey) (acc : SegAcc) (k : SKey) :
    ((lines.foldl (segStep heading) (cur, acc)).2).get k =
      acc.get k ++ sectionContent heading cur k lines := by
  induction lines generalizing cur acc with
  | nil => simp [sectionContent]
  | cons raw rest ih =>
    rw [List.foldl_cons]
    by_cases hempty : pyStrip raw = ""
    · have hstep : segStep heading (cur, acc) raw = (cur, acc) := by
        simp [segStep, hempty]
      have hnext : headingState heading cur [raw] = cur := by
        simp [headingState, hempty]
      have hcl : contentLine heading raw = none := by
        simp [contentLine, hempty]
      rw [hstep, ih]
      simp [sectionContent, hnext, hcl]
    · cases hh : heading (pyLowerStr (pyStrip raw)) with
      | some knew =>
        have hstep : segStep heading (cur, acc) raw = (some knew, acc) := by
          simp [segStep, hempty, hh]
        have hnext : headingState heading cur [raw] = some knew := by
          simp [headingState, hempty, hh]
        have hcl : contentLine heading raw = none := by
          simp [contentLine, hempty, hh]
        rw [hstep, ih]
        simp [sectionContent, hnext, hcl]
      | none =>
        cases cur with
        | some k0 =>
          have hstep : segStep heading (some k0, acc) raw =
              (some k0, acc.push k0 (pyStrip raw)) := by
            simp [segStep, hempty, hh]
          have hnext : headingState heading (some k0) [raw] = some k0 := by
            simp [headingState, hempty, hh]
          have hcl : contentLine heading raw = some (pyStrip raw) := by
            simp [contentLine, hempty, hh]
          rw [hstep, ih, SegAcc.push_get]
          simp only [sectionContent, hnext, hcl]
          by_cases hk : k0 = k
          · simp [hk, List.append_assoc]
          · have : ¬(some k0 = some k) := by simpa using hk
            simp [hk, this]
        | none =>
          have hstep : segStep heading (none, acc) raw = (none, acc) := by
            simp [segStep, hempty, hh]
          have hnext : headingState heading none [raw] = none := by
            simp [headingState, hempty, hh]
          have hcl : contentLine heading raw = some (pyStrip raw) := by
            simp [contentLine, hempty, hh]
          rw [hstep, ih]
          simp [sectionContent, hnext, hcl]

theorem segmentWith_get (heading : String → Option SKey) (text : String) (k : SKey) :
    (segmentWith heading text).get k =
      joinedSection (sectionContent heading none k (pySplitLines text)) := by
  have h := segRun_get heading (pySplitLines text) none ⟨[], [], []⟩ k
  rw [show (⟨[], [], []⟩ : SegAcc).get k = [] from by cases k <;> rfl,
    List.nil_append] at h
  cases k <;>
    simpa [segmentWith, segRun, SegOut.get, SegAcc.get] using congrArg joinedSection h

theorem qmin_mono_right {a x y : ℚ} (h : x ≤ y) : qmin a x ≤ qmin a y := by
  rw [qmin_eq, qmin_eq]
  exact min_le_min (le_refl a) h

theorem matched_filter_length_mono (resume jd : List String) (skl : String) :
    ((lowerSet resume).filter (fun s => decide (s ∈ lowerSet jd))).length ≤
      ((lowerSet (resume ++ [skl])).filter (fun s => decide (s ∈ lowerSet jd))).length := by
  have hnd1 : ((lowerSet resume).filter (fun s => decide (s ∈ lowerSet jd))).Nodup :=
    (List.nodup_dedup _).filter _
  have hnd2 : ((lowerSet (resume ++ [skl])).filter
      (fun s => decide (s ∈ lowerSet jd))).Nodup :=
    (List.nodup_dedup _).filter _
  have hsub : ∀ x, x ∈ (lowerSet resume).filter (fun s => decide (s ∈ lowerSet jd)) →
      x ∈ (lowerSet (resume ++ [skl])).filter (fun s => decide (s ∈ lowerSet jd)) := by
    intro x hx
    rw [List.mem_filter] at hx ⊢
    refine ⟨?_, hx.2⟩
    have hx1 := hx.1
    rw [lowerSet, List.mem_dedup] at hx1 ⊢
    rw [List.map_append]
    exact List.mem_append_left _ hx1
  calc ((lowerSet resume).filter (fun s => decide (s ∈ lowerSet jd))).length
      = ((lowerSet resume).filter (fun s => decide (s ∈ lowerSet jd))).toFinset.card :=
        (List.toFinset_card_of_nodup hnd1).symm
    _ ≤ ((lowerSet (resume ++ [skl])).filter
          (fun s => decide (s ∈ lowerSet jd))).toFinset.card := by
        apply Finset.card_le_card
        intro x hx
        rw [List.mem_toFinset] at hx ⊢
        exact hsub x hx
    _ = ((lowerSet (resume ++ [skl])).filter
          (fun s => decide (s ∈ lowerSet jd))).length :=
        List.toFinset_card_of_nodup hnd2

/-! ### Claim theorems -/
/-- C9: `normalize_text` (lowercase, replace non-word/non-space characters,
collapse whitespace, strip) is idempotent. -/
theorem c9_normalize_text_idem (s : String) :
    normalize_text (normalize_text s) = normalize_text s := by
  show String.mk (normalizeL (normalizeL s.data)) = String.mk (normalizeL s.data)
  exact congrArg String.mk (normalizeL_idem s.data)

/-- C5 counterexample: with non-empty lists on both sides the blended score
can still reach exactly 1.0 (identical skill lists, cosine 1) and exactly
0.0 (disjoint skill lists, cosine 0, e.g. the zero-embedding fallback), so
neither "only if" direction of the claim holds. -/
theorem c5_counterexample :
    (compute_skills_similarity (fun _ _ => 1) ["python"] ["python"]).1 = 1 ∧
    (["python"] : List String) ≠ [] ∧
    (compute_skills_similarity (fun _ _ => 0) ["java"] ["python"]).1 = 0 ∧
    (["java"] : List String) ≠ [] := by
  decide

/-- C5 (amended): `compute_skills_similarity` returns exactly 1.0 with
breakdown `{matched := [], missing := [], extra := resume_skills}` whenever
`jd_skills` is empty, and exactly 0.0 with `missing = jd_skills` whenever
`resume_skills` is empty while `jd_skills` is not.  (The converses fail — see
the counterexample.) -/
theorem c5_skills_empty_cases (sim : String → String → ℚ)
    (resume_skills jd_skills : List String) :
    (jd_skills = [] →
      compute_skills_similarity sim resume_skills jd_skills =
        (1, ⟨[], [], resume_skills, none⟩)) ∧
    (resume_skills = [] → jd_skills ≠ [] →
      compute_skills_similarity sim resume_skills jd_skills =
        (0, ⟨[], jd_skills, [], none⟩)) := by
  constructor
  · intro h
    simp [compute_skills_similarity, h]
  · intro hr hj
    simp [compute_skills_similarity, hr, hj]

theorem c5_skills_empty_cases_witness :
    compute_skills_similarity (fun _ _ => 0) ["python"] [] =
      (1, ⟨[], [], ["python"], none⟩) ∧
    compute_skills_similarity (fun _ _ => 0) [] ["python"] =
      (0, ⟨[], ["python"], [], none⟩) :=
  ⟨(c5_skills_empty_cases (fun _ _ => 0) ["python"] []).1 rfl,
   (c5_skills_empty_cases (fun _ _ => 0) [] ["python"]).2 rfl (by decide)⟩

/-- C6 counterexample: with the embedder treated as an arbitrary function of
the two joined texts, adding the jd skill `python` to the resume list
`["x"]` strictly decreases the skills score (the exact-match gain 0.85/3 is
smaller than the semantic swing 0.15·(1-(-1))). -/
theorem c6_counterexample :
    ((compute_skills_similarity (fun a _ => if a = "x" then 1 else -1)
        ["x", "python"] ["python", "java", "c"]).1 <
      (compute_skills_similarity (fun a _ => if a = "x" then 1 else -1)
        ["x"] ["python", "java", "c"]).1) ∧
    "python" ∈ (["python", "java", "c"] : List String) := by
  decide

/-- C6 (amended): adding a resume skill that occurs case-insensitively in the
(non-empty) jd list never decreases the skills score, provided the semantic
cosine term of the joined texts is unchanged by the addition. -/
theorem c6_skills_monotone_fixed_semantic (sim : String → String → ℚ)
    (resume_skills jd_skills : List String) (skl : String)
    (hj : jd_skills ≠ [])
    (hmem : pyLowerStr skl ∈ jd_skills.map pyLowerStr)
    (hsem_eq : compute_similarity sim (joinSpace (resume_skills ++ [skl]))
        (joinSpace jd_skills)
      = compute_similarity sim (joinSpace resume_skills) (joinSpace jd_skills)) :
    (compute_skills_similarity sim resume_skills jd_skills).1 ≤
      (compute_skills_similarity sim (resume_skills ++ [skl]) jd_skills).1 := by
  have hjset : lowerSet jd_skills ≠ [] := by
    intro h0
    rw [lowerSet, List.dedup_eq_nil] at h0
    exact hj (by simpa using congrArg List.length h0)
  have hJpos : (0:ℚ) < ((lowerSet jd_skills).length : ℚ) := by
    have := List.length_pos.mpr hjset
    exact_mod_cast this
  by_cases hres : resume_skills = []
  · subst hres
    simp only [List.nil_append] at hsem_eq ⊢
    have hlhs : (compute_skills_similarity sim [] jd_skills).1 = 0 := by
      simp [compute_skills_similarity, hj]
    rw [hlhs]
    have hskl : ([skl] : List String) ≠ [] := by simp
    simp only [compute_skills_similarity, if_neg hj, if_neg hskl]
    refine qmin_nonneg (by norm_num) ?_
    have he : (0:ℚ) ≤ if lowerSet jd_skills ≠ [] then
        (((lowerSet [skl]).filter (fun s => decide (s ∈ lowerSet jd_skills))).length : ℚ) /
          ((lowerSet jd_skills).length : ℚ) else 0 := by
      rw [if_pos hjset]
      positivity
    have hs : compute_similarity sim (joinSpace [skl]) (joinSpace jd_skills) = 0 := by
      rw [hsem_eq]
      have hjoin : joinSpace ([] : List String) = "" := by decide
      rw [hjoin]
      simp [compute_similarity]
    nlinarith
  · have hres' : resume_skills ++ [skl] ≠ [] := by simp
    simp only [compute_skills_similarity, if_neg hj, if_neg hres, if_neg hres']
    rw [hsem_eq, if_pos hjset, if_pos hjset]
    apply qmin_mono_right
    have hmono := matched_filter_length_mono resume_skills jd_skills skl
    have hdiv : (((lowerSet resume_skills).filter
          (fun s => decide (s ∈ lowerSet jd_skills))).length : ℚ) /
          ((lowerSet jd_skills).length : ℚ) ≤
        (((lowerSet (resume_skills ++ [skl])).filter
          (fun s => decide (s ∈ lowerSet jd_skills))).length : ℚ) /
          ((lowerSet jd_skills).length : ℚ) := by
      apply div_le_div_of_nonneg_right ?_ hJpos.le
      exact_mod_cast hmono
    linarith

theorem c6_skills_monotone_witness :
    ((["python"] : List String) ≠ []) ∧
    (compute_skills_similarity (fun _ _ => 0) ["a"] ["python"]).1 ≤
      (compute_skills_similarity (fun _ _ => 0) (["a"] ++ ["python"]) ["python"]).1 :=
  ⟨by decide,
   c6_skills_monotone_fixed_semantic (fun _ _ => 0) ["a"] ["python"] "python"
     (by decide) (by decide) (by decide)⟩

/-- C7: the reviewer score update at JSON level.  An absent response or one
without a `final_score` key leaves the working score unchanged; but a
response whose `final_score` is present and non-numeric makes
`min(max(final_score, 0.0), 100.0)` raise an uncaught `TypeError`, which the
scoring engine propagates (the code bug behind this claim). -/
theorem c7_gemini_update_behavior :
    gemini_score_update none 40 = Except.ok 40 ∧
    gemini_score_update (some [("review", JVal.str "ok")]) 40 = Except.ok 40 ∧
    gemini_score_update (some [("final_score", JVal.str "seventy")]) 40 =
      Except.error "TypeError" :=
  ⟨rfl, rfl, rfl⟩

/-- C8 counterexample: under the claim reading (a heading is the keyword
itself, with an optional trailing colon) the second line is content of the
`skills` section; the code instead prefix-matches, so the line
`experienced python developer` is treated as an `experience` heading, is
dropped, and every section comes out empty. -/
theorem c8_counterexample :
    segment_document "skills\nexperienced python developer" =
      ⟨none, none, none⟩ ∧
    segment_document_spec "skills\nexperienced python developer" =
      ⟨none, none, some "experienced python developer"⟩ := by
  decide

/-- C8 (amended): `_segment_document` processes lines in order; a line whose
lowercased, stripped form starts with a known heading keyword switches the
current section and is itself excluded; stripped non-empty non-heading lines
accumulate, in order, into the section last switched to (lines before the
first heading are discarded); and each section key is present in the output
exactly when its content is non-empty, holding the newline-joined content. -/
theorem c8_segment_characterization (text : String) (k : SKey) :
    (segment_document text).get k =
      joinedSection (sectionContent lineHeading none k (pySplitLines text)) :=
  segmentWith_get lineHeading text k

/-- C10: each produced result is internally consistent:
`profession_match_flag` is the negation of
`breakdown_details.profession_mismatch`, `bert_scores.final` equals the
top-level `final_score`, and `bert_scores.baseline_final` equals
`breakdown_details.bert_baseline_final`. -/
theorem c10_result_consistency (sim : String → String → ℚ)
    (settings : AdminSettings) (rt jt : String) (rsec jsec : Sections)
    (gem : Option Correction) :
    (compute_match_score sim settings rt jt rsec jsec gem).profession_match_flag =
      !(compute_match_score sim settings rt jt rsec jsec
          gem).breakdown_details.profession_mismatch ∧
    (compute_match_score sim settings rt jt rsec jsec gem).bert_scores.final =
      (compute_match_score sim settings rt jt rsec jsec gem).final_score ∧
    (compute_match_score sim settings rt jt rsec jsec gem).bert_scores.baseline_final =
      (compute_match_score sim settings rt jt rsec jsec
          gem).breakdown_details.bert_baseline_final :=
  ⟨rfl, rfl, rfl⟩

/-- C1 counterexample: with the default configuration (weights non-negative,
summing to 1) and an embedder cosine of `-1` between every pair of section
texts (while the whole-document similarity passes both thresholds), the
returned `final_score` is `-48.75`, outside `[0, 100]`. -/
theorem c1_counterexample :
    (defaultSettings.weight_education + defaultSettings.weight_skills +
        defaultSettings.weight_experience = 1 ∧
      0 ≤ defaultSettings.weight_education ∧ 0 ≤ defaultSettings.weight_skills ∧
      0 ≤ defaultSettings.weight_experience) ∧
    (compute_match_score (fun a _ => if a = "alpha" then 1 else -1) defaultSettings
        "alpha" "beta"
        ⟨⟨"unknown", "", "p"⟩, ["a"], ⟨0, [], "", "r"⟩⟩
        ⟨⟨"unknown", "", "q"⟩, ["b"], ⟨0, [], "", "s"⟩⟩
        none).final_score = -195/4 ∧
    ¬(0 ≤ (-195/4 : ℚ)) := by
  decide

/-- C1 (amended): under a configuration with non-negative weights summing to
1 and a non-negative partial-credit cap, and with every embedder similarity
non-negative (real cosines may be negative — see the counterexample — the
spec uses them unclamped), `final_score` lies in `[0, 100]`; and whenever the
profession gate fires, the skill overlap ratio stays below 0.5, and the
reviewer supplies no numeric `final_score`, the returned `final_score` is
exactly 0. -/
theorem c1_final_score_bounds (sim : String → String → ℚ)
    (settings : AdminSettings) (rt jt : String) (rsec jsec : Sections)
    (gem : Option Correction)
    (hsim : ∀ a b, 0 ≤ sim a b)
    (hwE : 0 ≤ settings.weight_education) (hwS : 0 ≤ settings.weight_skills)
    (hwX : 0 ≤ settings.weight_experience)
    (hsum : settings.weight_education + settings.weight_skills +
      settings.weight_experience = 1)
    (hcap : 0 ≤ settings.credit_cap)
    (hyears : 0 ≤ rsec.experience.years) :
    (0 ≤ (compute_match_score sim settings rt jt rsec jsec gem).final_score ∧
      (compute_match_score sim settings rt jt rsec jsec gem).final_score ≤ 100) ∧
    (compute_profession_similarity sim rt jt < settings.profession_zero_threshold →
      skill_overlap_ratio (compute_skills_similarity sim rsec.skills jsec.skills).2 < 1/2 →
      (gem = none ∨ ∃ c, gem = some c ∧ c.final_score = none) →
      (compute_match_score sim settings rt jt rsec jsec gem).final_score = 0) := by
  have hedu1 := compute_education_similarity_le_one sim rsec.education jsec.education
  have hedu0 := compute_education_similarity_nonneg hsim rsec.education jsec.education
  have hsk1 := compute_skills_similarity_le_one sim rsec.skills jsec.skills
  have hsk0 := compute_skills_similarity_nonneg hsim rsec.skills jsec.skills
  have hex1 := compute_experience_similarity_le_one sim rsec.experience jsec.experience
  have hex0 := compute_experience_similarity_nonneg hsim rsec.experience jsec.experience hyears
  have hB0 : 0 ≤ (settings.weight_education *
        compute_education_similarity sim rsec.education jsec.education +
      settings.weight_skills * (compute_skills_similarity sim rsec.skills jsec.skills).1 +
      settings.weight_experience *
        compute_experience_similarity sim rsec.experience jsec.experience) * 100 := by
    have := mul_nonneg hwE hedu0
    have := mul_nonneg hwS hsk0
    have := mul_nonneg hwX hex0
    nlinarith
  have hB1 : (settings.weight_education *
        compute_education_similarity sim rsec.education jsec.education +
      settings.weight_skills * (compute_skills_similarity sim rsec.skills jsec.skills).1 +
      settings.weight_experience *
        compute_experience_similarity sim rsec.experience jsec.experience) * 100 ≤ 100 := by
    have h1 := mul_le_mul_of_nonneg_left hedu1 hwE
    have h2 := mul_le_mul_of_nonneg_left hsk1 hwS
    have h3 := mul_le_mul_of_nonneg_left hex1 hwX
    nlinarith
  constructor
  · constructor
    · apply pyRound2_nonneg
      split
      · split
        · norm_num
        · exact (correction_step_fst_bounds gem _ _ (le_refl 0) (by norm_num)).1
      · split
        · norm_num
        · exact (correction_step_fst_bounds gem _ _
            (bert_final_value_bounds _ _ _ _ _ hcap hB0 hB1).1
            (bert_final_value_bounds _ _ _ _ _ hcap hB0 hB1).2).1
    · apply pyRound2_le_hundred
      split
      · split
        · norm_num
        · exact (correction_step_fst_bounds gem _ _ (le_refl 0) (by norm_num)).2
      · split
        · norm_num
        · exact (correction_step_fst_bounds gem _ _
            (bert_final_value_bounds _ _ _ _ _ hcap hB0 hB1).1
            (bert_final_value_bounds _ _ _ _ _ hcap hB0 hB1).2).2
  · intro h1 h2 h3
    have hd1 : decide (compute_profession_similarity sim rt jt <
        settings.profession_zero_threshold) = true := decide_eq_true h1
    have hd2 : decide (skill_overlap_ratio
        (compute_skills_similarity sim rsec.skills jsec.skills).2 ≥ 1/2) = false :=
      decide_eq_false (not_le.mpr h2)
    have hd5 : decide ((0:ℚ) > 5) = false := by decide
    rcases h3 with rfl | ⟨c, rfl, hc⟩
    · simp only [compute_match_score, correction_step, hd1, hd2, Bool.not_false,
        Bool.and_self, if_pos, hd5, Bool.and_false, Bool.false_eq_true, if_false]
      decide
    · simp only [compute_match_score, correction_step, hc, hd1, hd2, Bool.not_false,
        Bool.and_self, if_pos, hd5, Bool.and_false, Bool.false_eq_true, if_false]
      decide

theorem c1_final_score_bounds_witness :
    (0 ≤ (compute_match_score (fun _ _ => 0) defaultSettings "r" "j"
        ⟨⟨"unknown", "", "p"⟩, [], ⟨0, [], "", "r"⟩⟩
        ⟨⟨"unknown", "", "q"⟩, ["python"], ⟨0, [], "", "s"⟩⟩ none).final_score ∧
      (compute_match_score (fun _ _ => 0) defaultSettings "r" "j"
        ⟨⟨"unknown", "", "p"⟩, [], ⟨0, [], "", "r"⟩⟩
        ⟨⟨"unknown", "", "q"⟩, ["python"], ⟨0, [], "", "s"⟩⟩ none).final_score ≤ 100) ∧
    (compute_match_score (fun _ _ => 0) defaultSettings "r" "j"
        ⟨⟨"unknown", "", "p"⟩, [], ⟨0, [], "", "r"⟩⟩
        ⟨⟨"unknown", "", "q"⟩, ["python"], ⟨0, [], "", "s"⟩⟩ none).final_score = 0 :=
  ⟨(c1_final_score_bounds (fun _ _ => 0) defaultSettings "r" "j"
      ⟨⟨"unknown", "", "p"⟩, [], ⟨0, [], "", "r"⟩⟩
      ⟨⟨"unknown", "", "q"⟩, ["python"], ⟨0, [], "", "s"⟩⟩ none
      (fun _ _ => le_refl 0) (by decide) (by decide) (by decide) (by decide)
      (by decide) (by decide)).1,
   (c1_final_score_bounds (fun _ _ => 0) defaultSettings "r" "j"
      ⟨⟨"unknown", "", "p"⟩, [], ⟨0, [], "", "r"⟩⟩
      ⟨⟨"unknown", "", "q"⟩, ["python"], ⟨0, [], "", "s"⟩⟩ none
      (fun _ _ => le_refl 0) (by decide) (by decide) (by decide) (by decide)
      (by decide) (by decide)).2 (by decide) (by decide) (Or.inl rfl)⟩

theorem correction_step_fst_of_final {c : Correction} {v : ℚ}
    (hfs : c.final_score = some v) (prev : ℚ) (flag : Bool) :
    (correction_step (some c) prev flag).1 = qmin (qmax v 0) 100 := by
  rcases hpm : c.profession_mismatch <;> simp [correction_step, hfs, hpm]

/-- C2: whenever the profession-mismatch flag is still set after the external
correction step and the working (clamped reviewer) score exceeds the fixed
ceiling 5.0, the engine outputs exactly 5.0, overwrites the returned
the `final_score` of the returned correction record with 5.0 while retaining the pre-clamp
value as `final_score_original`, and marks `mismatch_cap_applied` in the
breakdown. -/
theorem c2_mismatch_cap (sim : String → String → ℚ) (settings : AdminSettings)
    (rt jt : String) (rsec jsec : Sections) (c : Correction) (v : ℚ)
    (hfs : c.final_score = some v)
    (hflag : (compute_match_score sim settings rt jt rsec jsec
      (some c)).breakdown_details.profession_mismatch = true)
    (hv : qmin (qmax v 0) 100 > 5) :
    (compute_match_score sim settings rt jt rsec jsec (some c)).final_score = 5 ∧
    (compute_match_score sim settings rt jt rsec jsec (some c)).gemini_correction =
      some ⟨some 5, c.profession_mismatch, c.profession_reason, c.review, c.suggestion,
        some (qmin (qmax v 0) 100)⟩ ∧
    (compute_match_score sim settings rt jt rsec jsec
      (some c)).breakdown_details.mismatch_cap_applied = some 5 := by
  have hd : decide (qmin (qmax v 0) 100 > 5) = true := decide_eq_true hv
  simp only [compute_match_score] at hflag ⊢
  simp only [correction_step_fst_of_final hfs] at hflag ⊢
  simp only [hflag, hd, Bool.and_self, if_pos]
  refine ⟨by decide, by first | rfl | trivial, by first | rfl | trivial⟩

theorem c2_mismatch_cap_witness :
    (compute_match_score (fun _ _ => 0) defaultSettings "r" "j"
        ⟨⟨"unknown", "", "p"⟩, [], ⟨0, [], "", "r"⟩⟩
        ⟨⟨"unknown", "", "q"⟩, [], ⟨0, [], "", "s"⟩⟩
        (some ⟨some 72, some (.boolean true), none, none, none⟩)).final_score = 5 ∧
    (compute_match_score (fun _ _ => 0) defaultSettings "r" "j"
        ⟨⟨"unknown", "", "p"⟩, [], ⟨0, [], "", "r"⟩⟩
        ⟨⟨"unknown", "", "q"⟩, [], ⟨0, [], "", "s"⟩⟩
        (some ⟨some 72, some (.boolean true), none, none, none⟩)).gemini_correction =
      some ⟨some 5, some (.boolean true), none, none, none,
        some (qmin (qmax 72 0) 100)⟩ ∧
    (compute_match_score (fun _ _ => 0) defaultSettings "r" "j"
        ⟨⟨"unknown", "", "p"⟩, [], ⟨0, [], "", "r"⟩⟩
        ⟨⟨"unknown", "", "q"⟩, [], ⟨0, [], "", "s"⟩⟩
        (some ⟨some 72, some (.boolean true), none, none,
          none⟩)).breakdown_details.mismatch_cap_applied = some 5 ∧
    qmin (qmax 72 0) 100 = 72 :=
  have h := c2_mismatch_cap (fun _ _ => 0) defaultSettings "r" "j"
    ⟨⟨"unknown", "", "p"⟩, [], ⟨0, [], "", "r"⟩⟩
    ⟨⟨"unknown", "", "q"⟩, [], ⟨0, [], "", "s"⟩⟩
    ⟨some 72, some (.boolean true), none, none, none⟩ 72 rfl (by decide) (by decide)
  ⟨h.1, h.2.1, h.2.2, by decide⟩

/-- C3: when the profession gate fires but the skill overlap ratio is at
least 0.5, the mismatch is overridden: the override reason is recorded, the
final flag is cleared (while `initial_profession_mismatch` records the
original firing), and — absent an external correction — `final_score` is the
rounded weighted composite, capped at `min(100, credit_cap × 1.5)` exactly
when the profession similarity is below the cap threshold; it is not
zeroed. -/
theorem c3_overlap_override (sim : String → String → ℚ) (settings : AdminSettings)
    (rt jt : String) (rsec jsec : Sections)
    (h1 : compute_profession_similarity sim rt jt < settings.profession_zero_threshold)
    (h2 : skill_overlap_ratio
      (compute_skills_similarity sim rsec.skills jsec.skills).2 ≥ 1/2) :
    (compute_match_score sim settings rt jt rsec jsec
        none).breakdown_details.profession_override_reason =
      some "High skill overlap with JD" ∧
    (compute_match_score sim settings rt jt rsec jsec
        none).breakdown_details.profession_mismatch = false ∧
    (compute_match_score sim settings rt jt rsec jsec
        none).breakdown_details.initial_profession_mismatch = true ∧
    (compute_match_score sim settings rt jt rsec jsec none).profession_match_flag = true ∧
    (compute_match_score sim settings rt jt rsec jsec none).final_score =
      pyRound2
        (if compute_profession_similarity sim rt jt < settings.profession_cap_threshold
         then qmin
            ((settings.weight_education *
                compute_education_similarity sim rsec.education jsec.education +
              settings.weight_skills *
                (compute_skills_similarity sim rsec.skills jsec.skills).1 +
              settings.weight_experience *
                compute_experience_similarity sim rsec.experience jsec.experience) * 100)
            (qmin 100 (settings.credit_cap * (3/2)))
         else (settings.weight_education *
                compute_education_similarity sim rsec.education jsec.education +
              settings.weight_skills *
                (compute_skills_similarity sim rsec.skills jsec.skills).1 +
              settings.weight_experience *
                compute_experience_similarity sim rsec.experience jsec.experience) * 100) := by
  have hd1 : decide (compute_profession_similarity sim rt jt <
      settings.profession_zero_threshold) = true := decide_eq_true h1
  have hd2 : decide (skill_overlap_ratio
      (compute_skills_similarity sim rsec.skills jsec.skills).2 ≥ 1/2) = true :=
    decide_eq_true h2
  simp only [compute_match_score, correction_step, bert_final_value, hd1, hd2,
    Bool.not_true, Bool.and_false, Bool.and_self, Bool.false_and,
    Bool.false_eq_true, if_false, if_true, h2, if_pos]
  refine ⟨by trivial, by trivial, by trivial, by trivial, by first | rfl | trivial⟩

theorem c3_overlap_override_witness :
    (compute_match_score (fun a _ => if a = "rr" then 1/10 else 0) defaultSettings
        "rr" "jj" ⟨⟨"unknown", "", "p"⟩, ["a", "b", "c"], ⟨0, [], "", "r"⟩⟩
        ⟨⟨"unknown", "", "q"⟩, ["a", "b", "c", "d", "e"], ⟨0, [], "", "s"⟩⟩
        none).breakdown_details.profession_override_reason =
      some "High skill overlap with JD" ∧
    (compute_match_score (fun a _ => if a = "rr" then 1/10 else 0) defaultSettings
        "rr" "jj" ⟨⟨"unknown", "", "p"⟩, ["a", "b", "c"], ⟨0, [], "", "r"⟩⟩
        ⟨⟨"unknown", "", "q"⟩, ["a", "b", "c", "d", "e"], ⟨0, [], "", "s"⟩⟩
        none).breakdown_details.profession_mismatch = false ∧
    (compute_match_score (fun a _ => if a = "rr" then 1/10 else 0) defaultSettings
        "rr" "jj" ⟨⟨"unknown", "", "p"⟩, ["a", "b", "c"], ⟨0, [], "", "r"⟩⟩
        ⟨⟨"unknown", "", "q"⟩, ["a", "b", "c", "d", "e"], ⟨0, [], "", "s"⟩⟩
        none).breakdown_details.initial_profession_mismatch = true ∧
    (compute_match_score (fun a _ => if a = "rr" then 1/10 else 0) defaultSettings
        "rr" "jj" ⟨⟨"unknown", "", "p"⟩, ["a", "b", "c"], ⟨0, [], "", "r"⟩⟩
        ⟨⟨"unknown", "", "q"⟩, ["a", "b", "c", "d", "e"], ⟨0, [], "", "s"⟩⟩
        none).profession_match_flag = true ∧
    (compute_match_score (fun a _ => if a = "rr" then 1/10 else 0) defaultSettings
        "rr" "jj" ⟨⟨"unknown", "", "p"⟩, ["a", "b", "c"], ⟨0, [], "", "r"⟩⟩
        ⟨⟨"unknown", "", "q"⟩, ["a", "b", "c", "d", "e"], ⟨0, [], "", "s"⟩⟩
        none).final_score = 459/20 :=
  have h := c3_overlap_override (fun a _ => if a = "rr" then 1/10 else 0)
    defaultSettings "rr" "jj"
    ⟨⟨"unknown", "", "p"⟩, ["a", "b", "c"], ⟨0, [], "", "r"⟩⟩
    ⟨⟨"unknown", "", "q"⟩, ["a", "b", "c", "d", "e"], ⟨0, [], "", "s"⟩⟩
    (by decide) (by decide)
  ⟨h.1, h.2.1, h.2.2.1, h.2.2.2.1, h.2.2.2.2.trans (by decide)⟩

/-- C4 counterexample: at the claimed inputs — weights 0.35/0.45/0.20,
dimension scores 0.8/0.6/0.5, profession similarity 0.9 (above both
thresholds), no correction — the engine returns
`round((0.35·0.8+0.45·0.6+0.20·0.5)·100, 2) = 65.0`; the value 62.0 asserted by the claim is a miscalculation of its own formula. -/
theorem c4_counterexample :
    (compute_match_score
        (fun a _ => if a = "r4" then 9/10 else if a = "a b c" then 3/5
          else if a = "er" then 1/7 else 0)
        defaultSettings "r4" "j4"
        ⟨⟨"bachelor", "", "edr"⟩, ["a", "b", "c"], ⟨2, [], "", "er"⟩⟩
        ⟨⟨"bachelor", "", "edj"⟩, ["a", "b", "c", "d", "e"], ⟨2, [], "", "es"⟩⟩
        none).bert_scores.education = 8/10 ∧
    (compute_match_score
        (fun a _ => if a = "r4" then 9/10 else if a = "a b c" then 3/5
          else if a = "er" then 1/7 else 0)
        defaultSettings "r4" "j4"
        ⟨⟨"bachelor", "", "edr"⟩, ["a", "b", "c"], ⟨2, [], "", "er"⟩⟩
        ⟨⟨"bachelor", "", "edj"⟩, ["a", "b", "c", "d", "e"], ⟨2, [], "", "es"⟩⟩
        none).bert_scores.skills = 6/10 ∧
    (compute_match_score
        (fun a _ => if a = "r4" then 9/10 else if a = "a b c" then 3/5
          else if a = "er" then 1/7 else 0)
        defaultSettings "r4" "j4"
        ⟨⟨"bachelor", "", "edr"⟩, ["a", "b", "c"], ⟨2, [], "", "er"⟩⟩
        ⟨⟨"bachelor", "", "edj"⟩, ["a", "b", "c", "d", "e"], ⟨2, [], "", "es"⟩⟩
        none).bert_scores.experience = 5/10 ∧
    (compute_match_score
        (fun a _ => if a = "r4" then 9/10 else if a = "a b c" then 3/5
          else if a = "er" then 1/7 else 0)
        defaultSettings "r4" "j4"
        ⟨⟨"bachelor", "", "edr"⟩, ["a", "b", "c"], ⟨2, [], "", "er"⟩⟩
        ⟨⟨"bachelor", "", "edj"⟩, ["a", "b", "c", "d", "e"], ⟨2, [], "", "es"⟩⟩
        none).profession_similarity = 9/10 ∧
    (compute_match_score
        (fun a _ => if a = "r4" then 9/10 else if a = "a b c" then 3/5
          else if a = "er" then 1/7 else 0)
        defaultSettings "r4" "j4"
        ⟨⟨"bachelor", "", "edr"⟩, ["a", "b", "c"], ⟨2, [], "", "er"⟩⟩
        ⟨⟨"bachelor", "", "edj"⟩, ["a", "b", "c", "d", "e"], ⟨2, [], "", "es"⟩⟩
        none).final_score = pyRound2 ((35/100 * (8/10) + 45/100 * (6/10) +
          20/100 * (5/10)) * 100) ∧
    pyRound2 ((35/100 * (8/10) + 45/100 * (6/10) + 20/100 * (5/10)) * 100) = 65 ∧
    (65 : ℚ) ≠ 62 := by
  decide

/-- C4 (amended): with weights 0.35/0.45/0.20, dimension scores 0.8/0.6/0.5,
profession similarity at or above both thresholds, and no external
correction, `final_score` equals
`round((0.35·0.8+0.45·0.6+0.20·0.5)·100, 2)`, which is 65.0 (not 62.0). -/
theorem c4_weighted_composite (sim : String → String → ℚ) (settings : AdminSettings)
    (rt jt : String) (rsec jsec : Sections)
    (hwE : settings.weight_education = 35/100)
    (hwS : settings.weight_skills = 45/100)
    (hwX : settings.weight_experience = 20/100)
    (he : compute_education_similarity sim rsec.education jsec.education = 8/10)
    (hs : (compute_skills_similarity sim rsec.skills jsec.skills).1 = 6/10)
    (hx : compute_experience_similarity sim rsec.experience jsec.experience = 5/10)
    (hz : ¬(compute_profession_similarity sim rt jt < settings.profession_zero_threshold))
    (hc : ¬(compute_profession_similarity sim rt jt < settings.profession_cap_threshold)) :
    (compute_match_score sim settings rt jt rsec jsec none).final_score =
      pyRound2 ((35/100 * (8/10) + 45/100 * (6/10) + 20/100 * (5/10)) * 100) ∧
    pyRound2 ((35/100 * (8/10) + 45/100 * (6/10) + 20/100 * (5/10)) * 100) = 65 := by
  have hd1 : decide (compute_profession_similarity sim rt jt <
      settings.profession_zero_threshold) = false := decide_eq_false hz
  constructor
  · simp only [compute_match_score, correction_step, bert_final_value, hd1,
      Bool.false_and, Bool.false_eq_true, if_false, if_neg hc, hwE, hwS, hwX,
      he, hs, hx]
  · decide

theorem c4_weighted_composite_witness :
    (compute_match_score
        (fun a _ => if a = "r4" then 9/10 else if a = "a b c" then 3/5
          else if a = "er" then 1/7 else 0)
        defaultSettings "r4" "j4"
        ⟨⟨"bachelor", "", "edr"⟩, ["a", "b", "c"], ⟨2, [], "", "er"⟩⟩
        ⟨⟨"bachelor", "", "edj"⟩, ["a", "b", "c", "d", "e"], ⟨2, [], "", "es"⟩⟩
        none).final_score = pyRound2 ((35/100 * (8/10) + 45/100 * (6/10) +
          20/100 * (5/10)) * 100) ∧
    pyRound2 ((35/100 * (8/10) + 45/100 * (6/10) + 20/100 * (5/10)) * 100) = 65 :=
  c4_weighted_composite
    (fun a _ => if a = "r4" then 9/10 else if a = "a b c" then 3/5
      else if a = "er" then 1/7 else 0)
    defaultSettings "r4" "j4"
    ⟨⟨"bachelor", "", "edr"⟩, ["a", "b", "c"], ⟨2, [], "", "er"⟩⟩
    ⟨⟨"bachelor", "", "edj"⟩, ["a", "b", "c", "d", "e"], ⟨2, [], "", "es"⟩⟩
    (by decide) (by decide) (by decide) (by decide) (by decide) (by decide)
    (by decide) (by decide)
